import Mathlib

/-!
Verification of the ModbusRTU engine (mod_master_rtu.c / mod_slave_rtu.c).

The message buffers (`uint8_t message[257]`) are embedded as functions
`Nat → Nat`; every store applies `% 256` (the C `uint8_t` conversion), and
theorems about frames received from the wire carry the hypothesis that the
buffer holds byte values.  Machine integers are `Nat` with explicit `% 2^w`
wherever C unsigned wrap-around matters; signed `int16_t` return codes are
`Int`.  User callbacks (function pointers of the C structs) are passed in as
explicit parameters / an environment record, and the observable facts about
them (return values, the sequence of register writes) are part of the
results of the embedded functions.
-/

/-- `buf[i] = (uint8_t)v` -/
def upd (f : Nat → Nat) (i v : Nat) : Nat → Nat :=
  fun j => if j = i then v % 256 else f j

/-- `buf[i] = (uint16_t)v` (the master's `registers` array holds `uint16_t`) -/
def upd16 (f : Nat → Nat) (i v : Nat) : Nat → Nat :=
  fun j => if j = i then v % 65536 else f j

/-- `TickType_t` subtraction `now - start` (32-bit unsigned wrap-around),
used by the master's timeout test `MODBUS_GET_TIME_MS - mstack->rxStartTime`. -/
def tickSub (a b : Nat) : Nat :=
  (a % 2 ^ 32 + 2 ^ 32 - b % 2 ^ 32) % 2 ^ 32

/-- Modelled from the spec: one shift round of the Modbus CRC.  The body of
`CrcModbus` is not in the sources (only its declaration, `crc.h`); per the
spec (§4.1) each round shifts the accumulator right one bit, XOR-ing the
reversed polynomial 0xA001 whenever the bit shifted out was 1. -/
def crcRound (c : Nat) : Nat :=
  if c % 2 = 1 then (c / 2) ^^^ 0xA001 else c / 2

/-- Modelled from the spec: absorb one input byte — XOR it into the low byte
of the accumulator, then run eight shift rounds. -/
def crcByte (c b : Nat) : Nat :=
  crcRound^[8] (c ^^^ b % 256)

/-- Modelled from the spec: fold `crcByte` over a byte list.  The two
branches of the `if` are identical, so this is exactly the plain fold
(see `crcList_cons`); the bound test only keeps kernel evaluation of
concrete frames shallow by forcing the accumulator at every byte. -/
def crcList : List Nat → Nat → Nat
  | [], c => c
  | b :: r, c =>
    if crcByte c b < 2 ^ 16 then crcList r (crcByte c b) else crcList r (crcByte c b)

/-- Modelled from the spec: `CrcModbus(data, length, crcSeed)` (declared in
`crc.h`; its body is not part of the sources).  Processes `data[0]` up to
`data[length-1]` starting from the seed. -/
def CrcModbus (data : Nat → Nat) (length seed : Nat) : Nat :=
  crcList ((List.range length).map data) seed

/-! ## Master engine (mod_master_rtu.c / mod_master_rtu.h) -/

/-- `modMasterState_t` -/
inductive MState where
  | standby
  | transmitting
  | waitingAnswer
  | received
  | processing
  | timedOut
  | corrupted
  | errReported
  | processed
  | hwError
deriving DecidableEq

/-- `modMasterStack_t`.  The `registers` pointer (caller-owned `uint16_t`
buffer) is embedded as a `Nat → Nat` map; nullability of the pointer the
caller hands to `ModMasterReadRegs`/`ModMasterWriteRegs` is modelled by an
`Option` at that call. -/
structure ModMasterStack where
  status : MState
  slaveAddr : Nat
  opCode : Nat
  firstReg : Nat
  numRegs : Nat
  registers : Nat → Nat
  messageLast : Nat
  message : Nat → Nat
  rxStartTime : Nat

/-- `ModMasterSend` (mod_master_rtu.c, lines 27-51).  `pfSendRes` is the
value returned by the user's `pfSend` callback. -/
def ModMasterSend (pfSendRes : Int) (m : ModMasterStack) : Int × ModMasterStack :=
  if m.messageLast > 253 then
    (-1, m)
  else
    let crc := CrcModbus m.message ((m.messageLast + 1) % 256) 0xFFFF
    let msg := upd (upd m.message (m.messageLast + 1) crc) (m.messageLast + 2) (crc / 256)
    let m1 : ModMasterStack :=
      { m with message := msg, messageLast := m.messageLast + 2, status := .transmitting }
    if pfSendRes < 0 then
      (-3, { m1 with status := .hwError })
    else
      (0, m1)

/-- `ModMasterReadRegs` (mod_master_rtu.c, lines 53-79). -/
def ModMasterReadRegs (pfSendRes : Int) (m : ModMasterStack)
    (modAddress first num : Nat) (regs : Option (Nat → Nat)) : Int × ModMasterStack :=
  if m.status ≠ .standby then
    (-1, m)
  else if num > 125 ∨ regs.isNone then
    (-2, m)
  else
    match regs with
    | none => (-2, m)
    | some r =>
      let msg := upd (upd (upd (upd (upd (upd m.message
        0 modAddress) 1 0x03) 2 (first / 256)) 3 first) 4 (num / 256)) 5 num
      ModMasterSend pfSendRes
        { m with slaveAddr := modAddress, opCode := 0x03, firstReg := first,
                 numRegs := num, registers := r, message := msg, messageLast := 5 }

/-- the register-encoding loop of `ModMasterWriteRegs` (lines 105-108):
`message[++messageLast] = regs[i] >> 8; message[++messageLast] = regs[i];`
for `i` running over `n` registers starting at `i0`. -/
def encodeRegs (regs : Nat → Nat) (i0 n : Nat) (msg : Nat → Nat) (mlast : Nat) :
    (Nat → Nat) × Nat :=
  match n with
  | 0 => (msg, mlast)
  | k + 1 =>
    let msg1 := upd (upd msg (mlast + 1) (regs i0 / 256)) (mlast + 2) (regs i0)
    encodeRegs regs (i0 + 1) k msg1 (mlast + 2)

/-- `ModMasterWriteRegs` (mod_master_rtu.c, lines 81-111). -/
def ModMasterWriteRegs (pfSendRes : Int) (m : ModMasterStack)
    (modAddress first num : Nat) (regs : Option (Nat → Nat)) : Int × ModMasterStack :=
  if m.status ≠ .standby then
    (-1, m)
  else if num > 123 ∨ regs.isNone then
    (-2, m)
  else
    match regs with
    | none => (-2, m)
    | some r =>
      let msg := upd (upd (upd (upd (upd (upd (upd m.message
        0 modAddress) 1 0x10) 2 (first / 256)) 3 first) 4 (num / 256)) 5 num) 6 (num * 2)
      let p := encodeRegs r 0 num msg 6
      ModMasterSend pfSendRes
        { m with slaveAddr := modAddress, opCode := 0x10, firstReg := first,
                 numRegs := num, message := p.1, messageLast := p.2 }

/-- the register-copy loop of `ModMasterProcessAnswer` (lines 148-151):
`registers[i] = ((uint16_t)message[3+2i] << 8) | message[4+2i]` for `i < n`. -/
def copyRegs (msg regs : Nat → Nat) : Nat → Nat → Nat
  | 0 => regs
  | k + 1 => upd16 (copyRegs msg regs k) k (msg (3 + 2 * k) * 256 + msg (4 + 2 * k))

/-- `ModMasterProcessAnswer` (mod_master_rtu.c, lines 114-183). -/
def ModMasterProcessAnswer (m : ModMasterStack) : ModMasterStack :=
  if m.message 1 &&& 0x7F ≠ m.opCode then
    { m with status := .corrupted }
  else if m.message 1 &&& 0x80 ≠ 0 then
    if m.messageLast < 2 then
      { m with status := .corrupted }
    else
      { m with status := .errReported }
  else if m.message 1 = 0x03 ∨ m.message 1 = 0x04 then
    if m.messageLast < 2 + 2 * m.numRegs ∨ m.message 2 ≠ 2 * m.numRegs then
      { m with status := .corrupted }
    else
      { m with registers := copyRegs m.message m.registers m.numRegs, status := .processed }
  else if m.message 1 = 0x10 then
    if m.messageLast < 5 then
      { m with status := .corrupted }
    else if m.message 2 = m.firstReg / 256 % 256 ∧ m.message 3 = m.firstReg % 256 ∧
            m.message 4 = m.numRegs / 256 % 256 ∧ m.message 5 = m.numRegs % 256 then
      { m with status := .processed }
    else
      { m with status := .corrupted }
  else
    { m with status := .corrupted }

/-- `ModMasterParseAnswer` (mod_master_rtu.c, lines 186-222).  The two CRC
comparisons use C's short-circuit `||` with post-decrement of `messageLast`,
hence the two different `messageLast` values on the mismatch paths. -/
def ModMasterParseAnswer (m0 : ModMasterStack) : ModMasterStack :=
  let m : ModMasterStack := { m0 with status := .processing }
  if m.message 0 = m.slaveAddr then
    if m.messageLast < 3 then
      { m with status := .corrupted }
    else
      let crc := CrcModbus m.message ((m.messageLast - 1) % 256) 0xFFFF
      if m.message m.messageLast ≠ crc / 256 % 256 then
        { m with messageLast := m.messageLast - 1, status := .corrupted }
      else if m.message (m.messageLast - 1) ≠ crc % 256 then
        { m with messageLast := m.messageLast - 2, status := .corrupted }
      else
        ModMasterProcessAnswer { m with messageLast := m.messageLast - 2 }
  else
    { m with status := .corrupted }

/-- the CRC verification performed on a received frame (mod_master_rtu.c,
lines 203-205, and identically mod_slave_rtu.c, lines 267-269): recompute
the CRC over the frame minus its two trailing bytes and compare the
trailing bytes against it, low byte at `messageLast - 1`, high byte at
`messageLast`. -/
def crcCheckOk (msg : Nat → Nat) (mlast : Nat) : Prop :=
  msg mlast = CrcModbus msg ((mlast - 1) % 256) 0xFFFF / 256 % 256 ∧
  msg (mlast - 1) = CrcModbus msg ((mlast - 1) % 256) 0xFFFF % 256

/-- result of `ModMasterCheck`: return value, `*lastStatus`, the pointee of
the `errCode` out-pointer (`none` models a NULL pointer), and the stack. -/
structure MCheckResult where
  retval : Int
  lastStatus : MState
  errCode : Option Nat
  stack : ModMasterStack

/-- `ModMasterCheck` (mod_master_rtu.c, lines 224-285).  `now` is the value
of `MODBUS_GET_TIME_MS`; `errCode` is the pointee of the caller's `errCode`
pointer (`none` = NULL). -/
def ModMasterCheck (m : ModMasterStack) (now : Nat) (errCode : Option Nat) : MCheckResult :=
  if m.status = .standby then
    ⟨1, .standby, errCode, m⟩
  else if m.status = .transmitting then
    ⟨0, .transmitting, errCode, m⟩
  else if m.status = .waitingAnswer then
    if tickSub now m.rxStartTime > 100 then
      ⟨1, .timedOut, errCode, { m with status := .standby }⟩
    else
      ⟨0, .waitingAnswer, errCode, m⟩
  else if m.status = .received then
    let m1 := ModMasterParseAnswer m
    let ec :=
      if m1.status = .errReported then
        match errCode with
        | some _ => some (m1.message 2)
        | none => none
      else errCode
    ⟨1, m1.status, ec, { m1 with status := .standby }⟩
  else if m.status = .corrupted then
    ⟨1, .corrupted, errCode, { m with status := .standby }⟩
  else if m.status = .hwError then
    ⟨1, .hwError, errCode, { m with status := .standby }⟩
  else
    ⟨0, m.status, errCode, { m with status := .standby }⟩

/-- `ModMasterTxDoneCallback` (lines 291-301).  `pfReceiveRes` is the value
returned by the user's `pfReceive` callback, `nowIsr` the value of
`MODBUS_GET_TIME_ISR_MS`. -/
def ModMasterTxDoneCallback (m : ModMasterStack) (pfReceiveRes : Int) (nowIsr : Nat) :
    ModMasterStack :=
  if m.status = .transmitting then
    let m1 : ModMasterStack := { m with status := .waitingAnswer }
    let m2 := if pfReceiveRes < 0 then { m1 with status := .hwError } else m1
    { m2 with rxStartTime := nowIsr }
  else m

/-- `ModMasterRxDoneCallback` (lines 303-324).  The pointer-identity test
that skips `memcpy` when the driver wrote straight into `message` is
result-equivalent to always copying, so the copy is unconditional here. -/
def ModMasterRxDoneCallback (m : ModMasterStack) (msg : Nat → Nat) (len : Nat) :
    ModMasterStack :=
  if m.status = .waitingAnswer then
    if len < 1 ∨ len > 257 then
      { m with status := .corrupted }
    else
      { m with messageLast := len - 1,
               message := fun k => if k < len then msg k % 256 else m.message k,
               status := .received }
  else m

/-- `ModMasterRxErrorCallback` (lines 326-333). -/
def ModMasterRxErrorCallback (m : ModMasterStack) : ModMasterStack :=
  if m.status = .waitingAnswer then { m with status := .corrupted } else m

/-! ## Slave engine (mod_slave_rtu.c / mod_slave_rtu.h) -/

/-- `modSlaveState_t` -/
inductive SState where
  | standby
  | receiving
  | received
  | processing
  | transmitting
deriving DecidableEq

/-- `modSlaveStack_t` (without the function-pointer fields, which live in
`SlaveEnv`). -/
structure ModSlaveStack where
  status : SState
  address : Nat
  lastReg : Nat
  messageLast : Nat
  message : Nat → Nat

/-- The user callbacks of `modSlaveStack_t`, reduced to their observable
behaviour: return values, the register map they expose, and the packet data
`pfGetPacket` deposits at `message + 3`.  `pfGetReg a = (r, v)` means the
callback returns `r` and stores `v` in `*regValue`; `pfSetPacket` has no
engine-visible effect (its return value is discarded by the C code). -/
structure SlaveEnv where
  pfStandbyRes : Int
  pfSendAnsRes : Int
  pfGetReg : Nat → Nat × Nat
  pfSetReg : Nat → Nat → Nat
  pfGetPacketData : Nat → Nat
  pfGetPacketLen : Nat
  pfGetPacketRes : Nat

/-- result of `ModSlaveSendAnswer`: return value, stack, and whether
`pfSendAns` was invoked. -/
structure SlaveSendResult where
  retval : Int
  stack : ModSlaveStack
  sent : Bool

/-- `ModSlaveSendAnswer` (mod_slave_rtu.c, lines 38-59). -/
def ModSlaveSendAnswer (env : SlaveEnv) (m : ModSlaveStack) : SlaveSendResult :=
  if m.messageLast > 253 then
    ⟨-1, m, false⟩
  else
    let crc := CrcModbus m.message ((m.messageLast + 1) % 256) 0xFFFF
    let msg := upd (upd m.message (m.messageLast + 1) crc) (m.messageLast + 2) (crc / 256)
    ⟨env.pfSendAnsRes,
     { m with message := msg, messageLast := m.messageLast + 2, status := .transmitting },
     true⟩

/-- `ModSlaveErrorReport` (mod_slave_rtu.c, lines 62-67).  Note the C code
uses `message[1] += 0x80`, a `uint8_t` addition that wraps. -/
def ModSlaveErrorReport (m : ModSlaveStack) (err : Nat) : ModSlaveStack :=
  { m with message := upd (upd m.message 1 (m.message 1 + 0x80)) 2 err, messageLast := 2 }

/-- The read-registers loop of `ModSlaveProcessCommand` (lines 108-120):
`for ( ; i <= j; i++)` over `uint16_t i`, reading each register through
`pfGetReg` and appending its two bytes.  The loop variable wraps at
`0x10000`, so for `j = 0xFFFF` the C loop never exits; `none` models that
non-termination (the fuel at the call site exceeds any terminating
iteration count). -/
def slaveReadLoop (env : SlaveEnv) : Nat → Nat → Nat → ModSlaveStack →
    Option (Int × ModSlaveStack)
  | 0, _, _, _ => none
  | fuel + 1, i, j, m =>
    if i ≤ j then
      let rv := env.pfGetReg i
      if rv.1 > 0 then
        some (-1, ModSlaveErrorReport m rv.1)
      else
        slaveReadLoop env fuel ((i + 1) % 65536) j
          { m with message := upd (upd m.message (m.messageLast + 1) (rv.2 / 256))
                     (m.messageLast + 2) rv.2,
                   messageLast := m.messageLast + 2 }
    else
      some (0, m)

/-- The write-registers loop of `ModSlaveProcessCommand` (lines 159-172):
decodes each big-endian value from the body and hands it to `pfSetReg`;
the returned list records the `pfSetReg` calls in order.  As with
`slaveReadLoop`, `none` models the non-terminating `j = 0xFFFF` case. -/
def slaveWriteLoop (env : SlaveEnv) : Nat → Nat → Nat → Nat → ModSlaveStack →
    List (Nat × Nat) → Option (Int × ModSlaveStack × List (Nat × Nat))
  | 0, _, _, _, _, _ => none
  | fuel + 1, i, j, idx, m, calls =>
    if i ≤ j then
      let v := m.message (idx + 1) * 256 + m.message (idx + 2)
      let r := env.pfSetReg i v
      if r > 0 then
        some (-1, ModSlaveErrorReport m r, calls ++ [(i, v)])
      else
        slaveWriteLoop env fuel ((i + 1) % 65536) j (idx + 2) m (calls ++ [(i, v)])
    else
      some (0, m, calls)

/-- result of `ModSlaveProcessCommand`: return value, stack, and the
sequence of `pfSetReg` calls it made. -/
structure SlaveProcResult where
  retval : Int
  stack : ModSlaveStack
  setCalls : List (Nat × Nat)

/-- `ModSlaveProcessCommand` (mod_slave_rtu.c, lines 70-245).  `none` means
the C function does not return (the register loops when `j = 0xFFFF`).
The write-multiple length test compares `message[6]` with
`messageLast - 6` in `int` arithmetic, hence the `Int` coercions. -/
def ModSlaveProcessCommand (env : SlaveEnv) (m : ModSlaveStack) : Option SlaveProcResult :=
  if m.message 1 = 0x03 ∨ m.message 1 = 0x04 then
    let i := m.message 2 * 256 + m.message 3
    if m.messageLast ≠ 5 ∨ m.message 4 ≠ 0 ∨ m.message 5 > 125 ∨ m.message 5 < 1 then
      some ⟨-1, ModSlaveErrorReport m 0x03, []⟩
    else
      let j := (m.message 5 - 1 + i) % 65536
      if i > j ∨ j > m.lastReg then
        some ⟨-1, ModSlaveErrorReport m 0x02, []⟩
      else
        let m1 : ModSlaveStack :=
          { m with message := upd m.message 2 (2 * m.message 5), messageLast := 2 }
        match slaveReadLoop env 65537 i j m1 with
        | none => none
        | some p => some ⟨p.1, p.2, []⟩
  else if m.message 1 = 0x10 then
    let i := m.message 2 * 256 + m.message 3
    if m.message 4 ≠ 0 ∨ m.message 5 > 123 ∨ m.message 5 < 1 then
      some ⟨-1, ModSlaveErrorReport m 0x03, []⟩
    else if m.message 6 ≠ 2 * m.message 5 ∨ (m.message 6 : Int) ≠ (m.messageLast : Int) - 6 then
      some ⟨-1, ModSlaveErrorReport m 0x03, []⟩
    else
      let j := (m.message 5 - 1 + i) % 65536
      if i > j ∨ j > m.lastReg then
        some ⟨-1, ModSlaveErrorReport m 0x02, []⟩
      else
        match slaveWriteLoop env 65537 i j 6 m [] with
        | none => none
        | some p =>
          if p.1 = 0 then
            some ⟨0, { p.2.1 with messageLast := 5 }, p.2.2⟩
          else
            some ⟨p.1, p.2.1, p.2.2⟩
  else if m.message 1 = 0x08 then
    if m.message 2 = 0 ∧ m.message 3 = 0 then
      some ⟨0, m, []⟩
    else
      some ⟨-1, ModSlaveErrorReport m 0x01, []⟩
  else if m.message 1 = 0x64 then
    if m.messageLast ≠ 2 then
      some ⟨-1, ModSlaveErrorReport m 0x03, []⟩
    else
      let mp : ModSlaveStack :=
        { m with message := fun k =>
            if 3 ≤ k ∧ k < 3 + env.pfGetPacketLen then env.pfGetPacketData (k - 3) % 256
            else m.message k }
      if env.pfGetPacketRes > 0 then
        some ⟨-1, ModSlaveErrorReport mp env.pfGetPacketRes, []⟩
      else if env.pfGetPacketLen > 251 then
        some ⟨-1, ModSlaveErrorReport mp 0x04, []⟩
      else
        some ⟨0, { mp with message := upd mp.message 2 env.pfGetPacketLen,
                           messageLast := env.pfGetPacketLen + 2 }, []⟩
  else if m.message 1 = 0x65 then
    if m.messageLast ≠ m.message 2 + 2 then
      some ⟨-1, ModSlaveErrorReport m 0x03, []⟩
    else
      some ⟨0, { m with messageLast := 2 }, []⟩
  else
    some ⟨-1, ModSlaveErrorReport m 0x01, []⟩

/-- result of `ModSlaveParseMessage` / `ModSlaveCheck`. -/
structure SlaveStepResult where
  retval : Int
  stack : ModSlaveStack
  calledStandby : Bool
  sent : Bool
  setCalls : List (Nat × Nat)

/-- `ModSlaveParseMessage` (mod_slave_rtu.c, lines 248-305). -/
def ModSlaveParseMessage (env : SlaveEnv) (m0 : ModSlaveStack) : Option SlaveStepResult :=
  let m : ModSlaveStack := { m0 with status := .processing }
  if m.message 0 = m.address ∨ m.message 0 = 0 then
    if m.messageLast < 3 then
      some ⟨-1, { m with status := .standby }, false, false, []⟩
    else
      let crc := CrcModbus m.message ((m.messageLast - 1) % 256) 0xFFFF
      if m.message m.messageLast ≠ crc / 256 % 256 then
        some ⟨-1, { m with messageLast := m.messageLast - 1, status := .standby }, false, false, []⟩
      else if m.message (m.messageLast - 1) ≠ crc % 256 then
        some ⟨-1, { m with messageLast := m.messageLast - 2, status := .standby }, false, false, []⟩
      else
        match ModSlaveProcessCommand env { m with messageLast := m.messageLast - 2 } with
        | none => none
        | some pr =>
          if pr.stack.message 0 ≠ 0 then
            let sr := ModSlaveSendAnswer env pr.stack
            if sr.retval < 0 then
              some ⟨sr.retval, sr.stack, false, sr.sent, pr.setCalls⟩
            else
              some ⟨pr.retval, sr.stack, false, sr.sent, pr.setCalls⟩
          else
            some ⟨pr.retval, { pr.stack with status := .standby }, false, false, pr.setCalls⟩
  else
    some ⟨0, { m with status := .standby }, false, false, []⟩

/-- `ModSlaveCheck` (mod_slave_rtu.c, lines 307-324).  `calledStandby`
records whether `pfStandby` was invoked. -/
def ModSlaveCheck (env : SlaveEnv) (m : ModSlaveStack) : Option SlaveStepResult :=
  let p : ModSlaveStack × Int × Bool :=
    if m.status = .standby then ({ m with status := .receiving }, env.pfStandbyRes, true)
    else (m, 0, false)
  if p.1.status = .received then
    match ModSlaveParseMessage env p.1 with
    | none => none
    | some pr => some ⟨pr.retval, pr.stack, p.2.2, pr.sent, pr.setCalls⟩
  else
    some ⟨p.2.1, p.1, p.2.2, false, []⟩

/-- `ModSlaveRxDoneCallback` (mod_slave_rtu.c, lines 330-352).  As for the
master, the pointer-identity `memcpy` skip is result-equivalent to always
copying. -/
def ModSlaveRxDoneCallback (m : ModSlaveStack) (msg : Nat → Nat) (len : Nat) : ModSlaveStack :=
  if m.status = .receiving then
    if len < 1 ∨ len > 257 then
      { m with status := .standby }
    else
      { m with status := .received, messageLast := len - 1,
               message := fun k => if k < len then msg k % 256 else m.message k }
  else m

/-- `ModSlaveRxErrorCallback` (mod_slave_rtu.c, lines 354-361). -/
def ModSlaveRxErrorCallback (m : ModSlaveStack) : ModSlaveStack :=
  if m.status = .receiving then { m with status := .standby } else m

/-- `ModSlaveTxDoneCallback` (mod_slave_rtu.c, lines 363-369). -/
def ModSlaveTxDoneCallback (m : ModSlaveStack) : ModSlaveStack :=
  if m.status = .transmitting then { m with status := .standby } else m

/-! ## Concrete example sessions (used by the closed instance theorems) -/

/-- a quiescent master session -/
def mstandby : ModMasterStack :=
  ⟨.standby, 0, 0, 0, 0, fun _ => 0, 0, fun _ => 0, 0⟩

/-- stripped read-holding-registers reply `11 03 04 00 0A 00 0B` for a
2-register read request -/
def readReplyMsg : Nat → Nat := fun k =>
  if k = 0 then 0x11 else if k = 1 then 0x03 else if k = 2 then 0x04
  else if k = 4 then 0x0A else if k = 6 then 0x0B else 0

/-- master session holding the reply `readReplyMsg` after CRC strip -/
def mreadReply : ModMasterStack :=
  ⟨.processing, 0x11, 0x03, 0x6B, 2, fun _ => 0, 6, readReplyMsg, 0⟩

/-- exception reply `05 83 02 81 30` (CRC of `05 83 02` is 0x3081) -/
def excReplyMsg : Nat → Nat := fun k =>
  if k = 0 then 0x05 else if k = 1 then 0x83 else if k = 2 then 0x02
  else if k = 3 then 0x81 else if k = 4 then 0x30 else 0

/-- master session that has just received `excReplyMsg` -/
def mexcReply : ModMasterStack :=
  ⟨.received, 0x05, 0x03, 0, 1, fun _ => 0, 4, excReplyMsg, 0⟩

/-- read request `11 03 00 6B 00 03` before CRC append -/
def readReqMsg : Nat → Nat := fun k =>
  if k = 0 then 0x11 else if k = 1 then 0x03 else if k = 3 then 0x6B
  else if k = 5 then 0x03 else 0

/-- master session about to transmit `readReqMsg` -/
def mreadReq : ModMasterStack :=
  ⟨.standby, 0x11, 0x03, 0x6B, 3, fun _ => 0, 5, readReqMsg, 0⟩

/-- a quiescent slave session -/
def sstandby : ModSlaveStack :=
  ⟨.standby, 1, 0xFFFF, 0, fun _ => 0⟩

/-- a slave environment whose register callbacks always succeed -/
def envOk : SlaveEnv :=
  ⟨0, 0, fun _ => (0, 0), fun _ _ => 0, fun _ => 0, 0, 0⟩

/-- a slave environment whose `pfStandby` fails -/
def envStandbyFail : SlaveEnv :=
  ⟨-5, 0, fun _ => (0, 0), fun _ _ => 0, fun _ => 0, 0, 0⟩

/-- stripped write-multiple frame writing 123 registers at 0xFF85, so the
last register is 0xFFFF: `01 10 FF 85 00 7B F6 00 …` -/
def wrapReqMsg : Nat → Nat := fun k =>
  if k = 1 then 0x10 else if k = 2 then 0xFF else if k = 3 then 0x85
  else if k = 5 then 0x7B else if k = 6 then 0xF6 else if k = 0 then 0x01 else 0

/-- slave session processing `wrapReqMsg` (`lastReg = 0xFFFF`) -/
def swrapReq : ModSlaveStack :=
  ⟨.processing, 1, 0xFFFF, 252, wrapReqMsg⟩

/-- request whose function byte 0x90 already has the high bit set -/
def hiOpMsg : Nat → Nat := fun k =>
  if k = 0 then 0x01 else if k = 1 then 0x90 else 0

/-- slave session processing `hiOpMsg` -/
def shiOp : ModSlaveStack :=
  ⟨.processing, 1, 0xFFFF, 2, hiOpMsg⟩

/-- 255 data bytes of a maximum-length diagnostic echo request
`01 08 00 00 00 …` -/
def diagMsgBase : Nat → Nat := fun k =>
  if k = 0 then 0x01 else if k = 1 then 0x08 else 0

/-- its Modbus CRC -/
def diagCrc : Nat := CrcModbus diagMsgBase 255 0xFFFF

/-- the full 257-byte diagnostic request with the CRC appended -/
def diagMsg : Nat → Nat := upd (upd diagMsgBase 255 diagCrc) 256 (diagCrc / 256)

/-- slave session that has just received the 257-byte `diagMsg` -/
def sdiagReq : ModSlaveStack :=
  ⟨.received, 1, 0xFFFF, 256, diagMsg⟩

/-- master session waiting for an answer since tick 0 -/
def mwaiting : ModMasterStack :=
  ⟨.waitingAnswer, 0, 0, 0, 0, fun _ => 0, 0, fun _ => 0, 0⟩

/-- stripped write-multiple frame `01 10 00 05 00 01 02 12 34`
(write register 5 := 0x1234) -/
def writeOkMsg : Nat → Nat := fun k =>
  if k = 1 then 0x10 else if k = 3 then 0x05 else if k = 5 then 0x01
  else if k = 6 then 0x02 else if k = 7 then 0x12 else if k = 8 then 0x34
  else if k = 0 then 0x01 else 0

/-- slave session processing `writeOkMsg` -/
def swriteOk : ModSlaveStack :=
  ⟨.processing, 1, 100, 8, writeOkMsg⟩

/-! ## Helper lemmas -/

theorem upd_self (f : Nat → Nat) (i v : Nat) : upd f i v i = v % 256 := by
  simp [upd]

theorem upd_ne (f : Nat → Nat) (i v j : Nat) (h : j ≠ i) : upd f i v j = f j := by
  simp [upd, h]

theorem crcList_cons (b : Nat) (r : List Nat) (c : Nat) :
    crcList (b :: r) c = crcList r (crcByte c b) := by
  simp only [crcList]
  split <;> rfl

theorem CrcModbus_congr (f g : Nat → Nat) (n s : Nat) (h : ∀ i, i < n → f i = g i) :
    CrcModbus f n s = CrcModbus g n s := by
  unfold CrcModbus
  have : (List.range n).map f = (List.range n).map g := by
    apply List.map_congr_left
    intro a ha
    exact h a (List.mem_range.mp ha)
  rw [this]

theorem tickSub_eq (a b : Nat) (h1 : b ≤ a) (h2 : a - b < 2 ^ 32) :
    tickSub a b = a - b := by
  unfold tickSub
  have hM : (2 : Nat) ^ 32 = 4294967296 := by norm_num
  rw [hM] at h2 ⊢
  omega

theorem copyRegs_get (msg regs : Nat → Nat) (hB : ∀ k, msg k < 256) :
    ∀ n i, i < n → copyRegs msg regs n i = msg (3 + 2 * i) * 256 + msg (4 + 2 * i) := by
  intro n
  induction n with
  | zero => omega
  | succ k ih =>
    intro i hi
    unfold copyRegs
    rcases Nat.lt_or_ge i k with hik | hik
    · simp only [upd16]
      rw [if_neg (by omega)]
      exact ih i hik
    · have hieq : i = k := by omega
      subst hieq
      simp only [upd16, if_true]
      have h1 : msg (3 + 2 * i) < 256 := hB _
      have h2 : msg (4 + 2 * i) < 256 := hB _
      exact Nat.mod_eq_of_lt (by omega)

theorem encodeRegs_snd (regs : Nat → Nat) :
    ∀ n i0 msg mlast, (encodeRegs regs i0 n msg mlast).2 = mlast + 2 * n := by
  intro n
  induction n with
  | zero => intro i0 msg mlast; rfl
  | succ k ih =>
    intro i0 msg mlast
    unfold encodeRegs
    rw [ih]
    omega

set_option maxRecDepth 100000

/-! ## Claim theorems -/

/-- C8: each hardware callback is a no-op — the whole session is returned
unchanged — whenever the session is not in the one state the callback
targets: `Transmitting` for the master's tx-done, `WaitingAnswer` for the
master's rx-done and rx-error, `Receiving` for the slave's rx-done and
rx-error, and `Transmitting` for the slave's tx-done. -/
theorem c8_callback_noops (m : ModMasterStack) (s : ModSlaveStack) (r : Int)
    (t len : Nat) (buf : Nat → Nat) :
    (m.status ≠ .transmitting → ModMasterTxDoneCallback m r t = m) ∧
    (m.status ≠ .waitingAnswer →
      ModMasterRxDoneCallback m buf len = m ∧ ModMasterRxErrorCallback m = m) ∧
    (s.status ≠ .receiving →
      ModSlaveRxDoneCallback s buf len = s ∧ ModSlaveRxErrorCallback s = s) ∧
    (s.status ≠ .transmitting → ModSlaveTxDoneCallback s = s) := by
  refine ⟨?_, ?_, ?_, ?_⟩ <;> intro h
  · unfold ModMasterTxDoneCallback
    rw [if_neg h]
  · constructor
    · unfold ModMasterRxDoneCallback
      rw [if_neg h]
    · unfold ModMasterRxErrorCallback
      rw [if_neg h]
  · constructor
    · unfold ModSlaveRxDoneCallback
      rw [if_neg h]
    · unfold ModSlaveRxErrorCallback
      rw [if_neg h]
  · unfold ModSlaveTxDoneCallback
    rw [if_neg h]

/-- C8 instance: the callbacks leave quiescent sessions untouched. -/
theorem c8_callback_noops_instance :
    ModMasterTxDoneCallback mstandby 0 7 = mstandby ∧
    ModMasterRxDoneCallback mstandby (fun _ => 0) 5 = mstandby ∧
    ModMasterRxErrorCallback mstandby = mstandby ∧
    ModSlaveRxDoneCallback sstandby (fun _ => 0) 5 = sstandby ∧
    ModSlaveRxErrorCallback sstandby = sstandby ∧
    ModSlaveTxDoneCallback sstandby = sstandby := by
  have h := c8_callback_noops mstandby sstandby 0 7 5 (fun _ => 0)
  exact ⟨h.1 (by decide), (h.2.1 (by decide)).1, (h.2.1 (by decide)).2,
    (h.2.2.1 (by decide)).1, (h.2.2.1 (by decide)).2, h.2.2.2 (by decide)⟩

/-- C5: in `WaitingAnswer`, `ModMasterCheck` reports done (`1`) with
`TimedOut` and resets the status to `Standby` exactly when more than
`MODBUS_RX_TIMEOUT = 100` ms have elapsed since `rxStartTime`; otherwise it
reports still-running (`0`) and leaves every session field unchanged. -/
theorem c5_waiting_timeout (m : ModMasterStack) (now : Nat) (ec : Option Nat)
    (hst : m.status = .waitingAnswer) (h1 : m.rxStartTime ≤ now)
    (h2 : now - m.rxStartTime < 2 ^ 32) :
    (now - m.rxStartTime > 100 →
      ModMasterCheck m now ec = ⟨1, .timedOut, ec, { m with status := .standby }⟩) ∧
    (now - m.rxStartTime ≤ 100 →
      ModMasterCheck m now ec = ⟨0, .waitingAnswer, ec, m⟩) := by
  have ht := tickSub_eq now m.rxStartTime h1 h2
  unfold ModMasterCheck
  rw [hst]
  rw [if_neg (by decide), if_neg (by decide), if_pos rfl]
  constructor
  · intro hgt
    rw [if_pos (by rw [ht]; exact hgt)]
  · intro hle
    rw [if_neg (by rw [ht]; omega)]

/-- C5 instance: at 101 ms with `rxStartTime = 0` the check times out. -/
theorem c5_waiting_timeout_instance :
    101 - mwaiting.rxStartTime > 100 ∧
    ModMasterCheck mwaiting 101 none = ⟨1, .timedOut, none, { mwaiting with status := .standby }⟩ :=
  ⟨by decide, (c5_waiting_timeout mwaiting 101 none rfl (by decide) (by decide)).1 (by decide)⟩

/-- C10: from `Standby`, `ModSlaveCheck` moves the status to `Receiving`
and invokes `pfStandby`; a negative `pfStandby` result is returned to the
caller while the status stays `Receiving`, and a later `ModSlaveCheck` is a
no-op that does not invoke `pfStandby` again (`calledStandby = false`);
the tx-done callback cannot move the session out of `Receiving` either. -/
theorem c10_standby_arm (env : SlaveEnv) (m : ModSlaveStack)
    (hst : m.status = .standby) (hneg : env.pfStandbyRes < 0) :
    ModSlaveCheck env m =
      some ⟨env.pfStandbyRes, { m with status := .receiving }, true, false, []⟩ ∧
    (∀ env2 : SlaveEnv, ModSlaveCheck env2 { m with status := .receiving } =
      some ⟨0, { m with status := .receiving }, false, false, []⟩) ∧
    ModSlaveTxDoneCallback { m with status := .receiving } = { m with status := .receiving } := by
  refine ⟨?_, ?_, ?_⟩
  · unfold ModSlaveCheck
    rw [hst]
    rfl
  · intro env2
    unfold ModSlaveCheck
    rfl
  · unfold ModSlaveTxDoneCallback
    rw [if_neg (by simp)]

/-- C10 instance: a failing `pfStandby` (returning −5) leaves the session
armed in `Receiving` and its value is handed to the caller. -/
theorem c10_standby_arm_instance :
    envStandbyFail.pfStandbyRes < 0 ∧
    ModSlaveCheck envStandbyFail sstandby =
      some ⟨envStandbyFail.pfStandbyRes, { sstandby with status := .receiving }, true, false, []⟩ :=
  ⟨by decide, (c10_standby_arm envStandbyFail sstandby rfl (by decide)).1⟩

/-- C1 counterexample: with the session in `Standby` and a non-null buffer,
`num = 0` is NOT rejected — both request builders return 0 (accepted) and
leave the session `Transmitting`, while the claim demands `BadParam` (−2)
for every `num` outside `[1,125]` resp. `[1,123]`. -/
theorem c1_boundary_counterexample :
    (ModMasterReadRegs 0 mstandby 1 0 0 (some (fun _ => 0))).1 = 0 ∧
    (ModMasterReadRegs 0 mstandby 1 0 0 (some (fun _ => 0))).1 ≠ -2 ∧
    (ModMasterReadRegs 0 mstandby 1 0 0 (some (fun _ => 0))).2.status = .transmitting ∧
    (ModMasterWriteRegs 0 mstandby 1 0 0 (some (fun _ => 0))).1 = 0 ∧
    (ModMasterWriteRegs 0 mstandby 1 0 0 (some (fun _ => 0))).1 ≠ -2 ∧
    (ModMasterWriteRegs 0 mstandby 1 0 0 (some (fun _ => 0))).2.status = .transmitting := by
  refine ⟨?_, ?_, ?_, ?_, ?_, ?_⟩ <;> decide

/-- C1 (amended): in `Standby` with a non-null buffer, `ModMasterReadRegs`
returns `BadParam` (−2) exactly when `num > 125` and `ModMasterWriteRegs`
exactly when `num > 123`; `num = 0` is accepted.  Every accepted request
(with a driver whose send succeeds) returns 0 and leaves the session
`Transmitting`. -/
theorem c1_register_count_gate (m : ModMasterStack) (a f num : Nat) (r : Nat → Nat)
    (s : Int) (hst : m.status = .standby) (hs : 0 ≤ s) :
    ((ModMasterReadRegs s m a f num (some r)).1 = -2 ↔ num > 125) ∧
    (num ≤ 125 → (ModMasterReadRegs s m a f num (some r)).1 = 0 ∧
      (ModMasterReadRegs s m a f num (some r)).2.status = .transmitting) ∧
    ((ModMasterWriteRegs s m a f num (some r)).1 = -2 ↔ num > 123) ∧
    (num ≤ 123 → (ModMasterWriteRegs s m a f num (some r)).1 = 0 ∧
      (ModMasterWriteRegs s m a f num (some r)).2.status = .transmitting) := by
  have hs' : ¬s < 0 := by omega
  refine ⟨?_, ?_, ?_, ?_⟩
  · by_cases hnum : num > 125
    · simp [ModMasterReadRegs, hst, hnum]
    · simp [ModMasterReadRegs, ModMasterSend, hst, hs', hnum]
  · intro hnum
    have hnum' : ¬num > 125 := by omega
    simp [ModMasterReadRegs, ModMasterSend, hst, hs', hnum']
  · by_cases hnum : num > 123
    · simp [ModMasterWriteRegs, hst, hnum]
    · have hml : ¬6 + 2 * num > 253 := by omega
      simp [ModMasterWriteRegs, ModMasterSend, hst, hs', hnum, encodeRegs_snd, hml]
  · intro hnum
    have hnum' : ¬num > 123 := by omega
    have hml : ¬6 + 2 * num > 253 := by omega
    simp [ModMasterWriteRegs, ModMasterSend, hst, hs', hnum', encodeRegs_snd, hml]

/-- C1 instance: the boundary counts 125 (read) and 123 (write) are
accepted, 126 and 124 are rejected with −2. -/
theorem c1_register_count_gate_instance :
    (125 ≤ 125 ∧
      (ModMasterReadRegs 0 mstandby 1 0 125 (some (fun _ => 0))).2.status = .transmitting) ∧
    ((ModMasterReadRegs 0 mstandby 1 0 126 (some (fun _ => 0))).1 = -2 ↔ 126 > 125) ∧
    (123 ≤ 123 ∧
      (ModMasterWriteRegs 0 mstandby 1 0 123 (some (fun _ => 0))).2.status = .transmitting) ∧
    ((ModMasterWriteRegs 0 mstandby 1 0 124 (some (fun _ => 0))).1 = -2 ↔ 124 > 123) :=
  ⟨⟨by decide, ((c1_register_count_gate mstandby 1 0 125 (fun _ => 0) 0 rfl (by decide)).2.1
      (by decide)).2⟩,
   (c1_register_count_gate mstandby 1 0 126 (fun _ => 0) 0 rfl (by decide)).1,
   ⟨by decide, ((c1_register_count_gate mstandby 1 0 123 (fun _ => 0) 0 rfl (by decide)).2.2.2
      (by decide)).2⟩,
   (c1_register_count_gate mstandby 1 0 124 (fun _ => 0) 0 rfl (by decide)).2.2.1⟩

/-- C4 counterexample: for a request whose function byte 0x90 already has
bit 7 set, the exception reply's function byte is 0x10 — the `uint8_t`
addition `message[1] += 0x80` wrapped — not `0x90 | 0x80 = 0x90` as the
claim demands. -/
theorem c4_exception_counterexample :
    (ModSlaveProcessCommand envOk shiOp).map
      (fun pr => (pr.stack.message 1, pr.stack.message 2, pr.stack.messageLast)) =
      some (0x10, 0x01, 2) ∧
    (0x90 ||| 0x80 : Nat) = 0x90 ∧ (0x10 : Nat) ≠ 0x90 := by
  refine ⟨?_, ?_, ?_⟩ <;> decide

/-- helper: setting bit 7 on a byte below 0x80 is the same as adding 0x80 -/
theorem lor_high_bit : ∀ a, a < 128 → a ||| 128 = a + 128 := by decide

/-- C4 (amended): an exception reply carries `(request function + 0x80) mod
256` as its function byte — equal to the function byte with the high bit set
whenever the function byte is below 0x80, but wrapped (high bit cleared) for
function bytes that already have bit 7 set — the exception code at offset 2,
and `message_last` truncated to 2 (the CRC is appended by the transmit
step); every other message byte is untouched.  A function code outside the
supported set yields exactly the `ILLEGAL_OPCODE` (0x01) exception reply. -/
theorem c4_exception_encoding (env : SlaveEnv) (m : ModSlaveStack) (err : Nat)
    (hB1 : m.message 1 < 256) (hErr : err < 256) :
    (ModSlaveErrorReport m err).message 1 = (m.message 1 + 0x80) % 256 ∧
    (m.message 1 < 0x80 →
      (ModSlaveErrorReport m err).message 1 = m.message 1 ||| 0x80) ∧
    (ModSlaveErrorReport m err).message 2 = err ∧
    (ModSlaveErrorReport m err).messageLast = 2 ∧
    (∀ k, k ≠ 1 → k ≠ 2 → (ModSlaveErrorReport m err).message k = m.message k) ∧
    (m.message 1 ∉ ([0x03, 0x04, 0x08, 0x10, 0x64, 0x65] : List Nat) →
      ModSlaveProcessCommand env m = some ⟨-1, ModSlaveErrorReport m 0x01, []⟩) := by
  refine ⟨?_, ?_, ?_, ?_, ?_, ?_⟩
  · simp [ModSlaveErrorReport, upd]
  · intro hlt
    have h1 : (ModSlaveErrorReport m err).message 1 = (m.message 1 + 0x80) % 256 := by
      simp [ModSlaveErrorReport, upd]
    rw [h1, Nat.mod_eq_of_lt (by omega), lor_high_bit (m.message 1) hlt]
  · simp [ModSlaveErrorReport, upd, Nat.mod_eq_of_lt hErr]
  · rfl
  · intro k hk1 hk2
    simp [ModSlaveErrorReport, upd, hk1, hk2]
  · intro hm
    simp only [List.mem_cons, List.mem_singleton, not_or] at hm
    obtain ⟨h3, h4, h8, h10, h64, h65⟩ := hm
    simp [ModSlaveProcessCommand, h3, h4, h8, h10, h64, h65]

/-- C4 instance: the wrapped function byte of the 0x90 request. -/
theorem c4_exception_encoding_instance :
    hiOpMsg 1 < 256 ∧
    (ModSlaveErrorReport shiOp 2).message 1 = (hiOpMsg 1 + 0x80) % 256 ∧
    (ModSlaveErrorReport shiOp 2).messageLast = 2 :=
  ⟨by decide, (c4_exception_encoding envOk shiOp 2 (by decide) (by decide)).1,
   (c4_exception_encoding envOk shiOp 2 (by decide) (by decide)).2.2.2.1⟩

/-- bytes of the concrete reply `readReplyMsg` -/
theorem readReplyMsg_bytes : ∀ k, readReplyMsg k < 256 := by
  intro k
  unfold readReplyMsg
  repeat' split
  all_goals decide

/-- C3: after the address, minimum-length, CRC and function-code checks, a
read reply (0x03/0x04) is decoded — state `Processed`, each requested
register stored big-endian from the body — exactly when the byte-count
field `message[2]` equals `2·numRegs` and the CRC-stripped frame carries at
least `2·numRegs` payload bytes after the byte-count byte
(`2 + 2·numRegs ≤ messageLast`); otherwise the state becomes `Corrupted`. -/
theorem c3_read_reply_decode (m : ModMasterStack)
    (hB : ∀ k, m.message k < 256)
    (hOp : m.message 1 = 0x03 ∨ m.message 1 = 0x04)
    (hOpc : m.opCode = m.message 1) :
    ((m.message 2 = 2 * m.numRegs ∧ 2 + 2 * m.numRegs ≤ m.messageLast) →
      (ModMasterProcessAnswer m).status = .processed ∧
      ∀ i, i < m.numRegs →
        (ModMasterProcessAnswer m).registers i =
          m.message (3 + 2 * i) * 256 + m.message (4 + 2 * i)) ∧
    (¬(m.message 2 = 2 * m.numRegs ∧ 2 + 2 * m.numRegs ≤ m.messageLast) →
      (ModMasterProcessAnswer m).status = .corrupted) := by
  have h1 : m.message 1 &&& 0x7F = m.opCode := by
    rcases hOp with h | h <;> rw [hOpc, h] <;> decide
  have h2 : ¬m.message 1 &&& 0x80 ≠ 0 := by
    rcases hOp with h | h <;> rw [h] <;> decide
  unfold ModMasterProcessAnswer
  rw [if_neg (not_not_intro h1), if_neg h2, if_pos hOp]
  constructor
  · intro hP
    obtain ⟨hP1, hP2⟩ := hP
    rw [if_neg (by push_neg; exact ⟨by omega, hP1⟩)]
    exact ⟨rfl, fun i hi => copyRegs_get m.message m.registers hB m.numRegs i hi⟩
  · intro hnP
    have hc : m.messageLast < 2 + 2 * m.numRegs ∨ m.message 2 ≠ 2 * m.numRegs := by
      by_cases h : m.message 2 = 2 * m.numRegs
      · left
        by_contra hlt
        push_neg at hlt
        exact hnP ⟨h, hlt⟩
      · right; exact h
    rw [if_pos hc]

/-- C3 instance: the reply `11 03 04 00 0A 00 0B` for a 2-register read is
decoded into `[0x000A, 0x000B]` with state `Processed`. -/
theorem c3_read_reply_decode_instance :
    (mreadReply.message 2 = 2 * mreadReply.numRegs ∧
      2 + 2 * mreadReply.numRegs ≤ mreadReply.messageLast) ∧
    (ModMasterProcessAnswer mreadReply).status = .processed ∧
    (ModMasterProcessAnswer mreadReply).registers 0 = 0x000A ∧
    (ModMasterProcessAnswer mreadReply).registers 1 = 0x000B := by
  have h := (c3_read_reply_decode mreadReply readReplyMsg_bytes (Or.inl (by decide))
    (by decide)).1 (by decide)
  refine ⟨by decide, h.1, ?_, ?_⟩
  · rw [h.2 0 (by decide)]; decide
  · rw [h.2 1 (by decide)]; decide

/-- helper: a successful CRC comparison turns `ModMasterParseAnswer` into
`ModMasterProcessAnswer` on the CRC-stripped frame -/
theorem parseAnswer_crcok (m : ModMasterStack)
    (hAddr : m.message 0 = m.slaveAddr) (hLen : 3 ≤ m.messageLast)
    (hok : crcCheckOk m.message m.messageLast) :
    ModMasterParseAnswer m =
      ModMasterProcessAnswer { m with status := .processing,
                                      messageLast := m.messageLast - 2 } := by
  obtain ⟨hHi, hLo⟩ := hok
  have h3' : ¬m.messageLast < 3 := by omega
  simp only [ModMasterParseAnswer, hAddr, h3', hHi, hLo, if_false, if_true, ite_true,
    ite_false, not_true, not_false_iff]
  simp

/-- helper: a failed CRC comparison leaves `ModMasterParseAnswer` in
`Corrupted` -/
theorem parseAnswer_crcbad (m : ModMasterStack)
    (hAddr : m.message 0 = m.slaveAddr) (hLen : 3 ≤ m.messageLast)
    (hbad : ¬crcCheckOk m.message m.messageLast) :
    (ModMasterParseAnswer m).status = .corrupted := by
  have h3' : ¬m.messageLast < 3 := by omega
  by_cases hHi : m.message m.messageLast =
      CrcModbus m.message ((m.messageLast - 1) % 256) 0xFFFF / 256 % 256
  · have hLo : ¬m.message (m.messageLast - 1) =
        CrcModbus m.message ((m.messageLast - 1) % 256) 0xFFFF % 256 :=
      fun hLo => hbad ⟨hHi, hLo⟩
    simp only [ModMasterParseAnswer, hAddr, h3', hHi, hLo]
    simp [hLo]
  · simp only [ModMasterParseAnswer, hAddr, h3', hHi]
    simp [hHi]

/-- C6: a received exception reply (bit 0x80 set, low 7 bits equal to the
requested op-code) that passed the address and CRC checks makes
`ModMasterCheck` report done (`1`) with `ErrReported`, copy `message[2]`
into the caller's `errCode` pointee when that pointer is non-null, and
reset the status to `Standby` — provided the CRC-stripped frame still has a
byte at offset 2 (`4 ≤ messageLast` before stripping).  If the stripped
frame is shorter (`messageLast = 3`), the outcome reported is `Corrupted`. -/
theorem c6_exception_surfaced (m : ModMasterStack) (now : Nat) (ec : Option Nat)
    (hst : m.status = .received)
    (hAddr : m.message 0 = m.slaveAddr)
    (hLen : 3 ≤ m.messageLast)
    (hok : crcCheckOk m.message m.messageLast)
    (hBit : m.message 1 &&& 0x80 ≠ 0)
    (hOp : m.message 1 &&& 0x7F = m.opCode) :
    (4 ≤ m.messageLast →
      ModMasterCheck m now ec = ⟨1, .errReported,
        (match ec with | some _ => some (m.message 2) | none => none),
        { m with status := .standby, messageLast := m.messageLast - 2 }⟩) ∧
    (m.messageLast = 3 →
      (ModMasterCheck m now ec).retval = 1 ∧
      (ModMasterCheck m now ec).lastStatus = .corrupted ∧
      (ModMasterCheck m now ec).stack.status = .standby) := by
  have hparse := parseAnswer_crcok m hAddr hLen hok
  constructor
  · intro hge
    have hlt2 : ¬m.messageLast - 2 < 2 := by omega
    have hpa : ModMasterParseAnswer m =
        { m with status := .errReported, messageLast := m.messageLast - 2 } := by
      rw [hparse]
      simp only [ModMasterProcessAnswer, hOp, hlt2]
      simp [hBit]
    simp only [ModMasterCheck, hst, hpa]
    simp
  · intro h3
    have hlt2 : m.messageLast - 2 < 2 := by omega
    have hpa : ModMasterParseAnswer m =
        { m with status := .corrupted, messageLast := m.messageLast - 2 } := by
      rw [hparse]
      simp only [ModMasterProcessAnswer, hOp, hlt2]
      simp [hBit]
    simp only [ModMasterCheck, hst, hpa]
    simp

/-- C6 instance: the exception reply `05 83 02 81 30` surfaces exception
code 2 and returns the session to `Standby`. -/
theorem c6_exception_surfaced_instance :
    4 ≤ mexcReply.messageLast ∧
    ModMasterCheck mexcReply 0 (some 0) = ⟨1, .errReported, some (mexcReply.message 2),
      { mexcReply with status := .standby, messageLast := mexcReply.messageLast - 2 }⟩ :=
  ⟨by decide,
   (c6_exception_surfaced mexcReply 0 (some 0) rfl (by decide) (by decide)
     ⟨by decide, by decide⟩ (by decide) (by decide)).1 (by decide)⟩

/-- helper: the frame produced by `ModMasterSend` -/
theorem modMasterSend_frame (s : Int) (m : ModMasterStack) (hL : m.messageLast ≤ 253) :
    (ModMasterSend s m).2.message =
      upd (upd m.message (m.messageLast + 1)
          (CrcModbus m.message ((m.messageLast + 1) % 256) 0xFFFF))
        (m.messageLast + 2) (CrcModbus m.message ((m.messageLast + 1) % 256) 0xFFFF / 256) ∧
    (ModMasterSend s m).2.messageLast = m.messageLast + 2 := by
  have hgt : ¬m.messageLast > 253 := by omega
  by_cases hs : s < 0 <;> simp [ModMasterSend, hgt, hs]

/-- helper: the frame produced by `ModSlaveSendAnswer` -/
theorem modSlaveSendAnswer_frame (env : SlaveEnv) (s : ModSlaveStack)
    (hL : s.messageLast ≤ 253) :
    (ModSlaveSendAnswer env s).stack.message =
      upd (upd s.message (s.messageLast + 1)
          (CrcModbus s.message ((s.messageLast + 1) % 256) 0xFFFF))
        (s.messageLast + 2) (CrcModbus s.message ((s.messageLast + 1) % 256) 0xFFFF / 256) ∧
    (ModSlaveSendAnswer env s).stack.messageLast = s.messageLast + 2 := by
  have hgt : ¬s.messageLast > 253 := by omega
  simp [ModSlaveSendAnswer, hgt]

/-- helper: appending the CRC low-then-high to a frame of data length
`L + 1 ≤ 254` yields a frame that passes the receiver's CRC check -/
theorem crcAppend_ok (msg : Nat → Nat) (L c : Nat) (hL : L ≤ 253)
    (hc : CrcModbus msg ((L + 1) % 256) 0xFFFF = c) :
    crcCheckOk (upd (upd msg (L + 1) c) (L + 2) (c / 256)) (L + 2) := by
  have h21 : L + 2 - 1 = L + 1 := by omega
  have hmod : (L + 1) % 256 = L + 1 := Nat.mod_eq_of_lt (by omega)
  have hcongr : CrcModbus (upd (upd msg (L + 1) c) (L + 2) (c / 256))
      ((L + 1) % 256) 0xFFFF = c := by
    rw [← hc]
    apply CrcModbus_congr
    intro i hi
    rw [hmod] at hi
    rw [upd_ne _ _ _ _ (by omega), upd_ne _ _ _ _ (by omega)]
  refine ⟨?_, ?_⟩
  · rw [h21, hcongr, upd_self]
  · rw [h21, hcongr, upd_ne _ _ _ _ (by omega), upd_self]

/-- C7: every ADU framed by the master's or the slave's transmit step — CRC
seeded with 0xFFFF over bytes `0..messageLast`, appended low byte then high
byte — passes the receiver's CRC verification `crcCheckOk`, which
recomputes the CRC over the frame minus its last two bytes; and on any
received frame the verification succeeding is exactly what separates
handing the stripped frame to `ModMasterProcessAnswer` from the
`Corrupted` outcome. -/
theorem c7_crc_roundtrip (m : ModMasterStack) (s : ModSlaveStack) (env : SlaveEnv)
    (sres : Int) (hm : m.messageLast ≤ 253) (hs : s.messageLast ≤ 253) :
    crcCheckOk (ModMasterSend sres m).2.message (ModMasterSend sres m).2.messageLast ∧
    crcCheckOk (ModSlaveSendAnswer env s).stack.message
      (ModSlaveSendAnswer env s).stack.messageLast ∧
    (∀ m2 : ModMasterStack, m2.message 0 = m2.slaveAddr → 3 ≤ m2.messageLast →
      (crcCheckOk m2.message m2.messageLast →
        ModMasterParseAnswer m2 = ModMasterProcessAnswer
          { m2 with status := .processing, messageLast := m2.messageLast - 2 }) ∧
      (¬crcCheckOk m2.message m2.messageLast →
        (ModMasterParseAnswer m2).status = .corrupted)) := by
  refine ⟨?_, ?_, ?_⟩
  · have hf := modMasterSend_frame sres m hm
    rw [hf.1, hf.2]
    exact crcAppend_ok m.message m.messageLast _ hm rfl
  · have hf := modSlaveSendAnswer_frame env s hs
    rw [hf.1, hf.2]
    exact crcAppend_ok s.message s.messageLast _ hs rfl
  · intro m2 hAddr hLen
    exact ⟨parseAnswer_crcok m2 hAddr hLen, parseAnswer_crcbad m2 hAddr hLen⟩

/-- C7 instance: the framed read request `11 03 00 6B 00 03` passes the
receiver's CRC verification. -/
theorem c7_crc_roundtrip_instance :
    mreadReq.messageLast ≤ 253 ∧
    crcCheckOk (ModMasterSend 0 mreadReq).2.message (ModMasterSend 0 mreadReq).2.messageLast :=
  ⟨by decide, (c7_crc_roundtrip mreadReq sstandby envOk 0 (by decide) (by decide)).1⟩

/-- C9: a valid unicast diagnostic echo request whose CRC-stripped length
exceeds the transmit limit (`messageLast - 2 > 253`, reachable with a
257-byte frame) makes `ModSlaveCheck` return −1 with the status left at
`Processing`: `pfSendAns` is never called (`sent = false`), `pfStandby` is
never called, and every subsequent `ModSlaveCheck` call and every hardware
callback leaves the session unchanged — the slave never transmits, never
re-arms the receiver, and never returns to `Standby`. -/
theorem c9_oversize_echo_stuck (env : SlaveEnv) (m : ModSlaveStack)
    (hst : m.status = .received)
    (hAddr : m.message 0 = m.address) (hNz : m.message 0 ≠ 0)
    (hOp : m.message 1 = 0x08) (h2 : m.message 2 = 0) (h3 : m.message 3 = 0)
    (hLen : 3 ≤ m.messageLast) (hBig : 253 < m.messageLast - 2)
    (hHi : m.message m.messageLast =
      CrcModbus m.message ((m.messageLast - 1) % 256) 0xFFFF / 256 % 256)
    (hLo : m.message (m.messageLast - 1) =
      CrcModbus m.message ((m.messageLast - 1) % 256) 0xFFFF % 256) :
    ModSlaveCheck env m = some ⟨-1,
      { m with status := .processing, messageLast := m.messageLast - 2 }, false, false, []⟩ ∧
    (∀ env2 : SlaveEnv,
      ModSlaveCheck env2 { m with status := .processing, messageLast := m.messageLast - 2 } =
        some ⟨0, { m with status := .processing, messageLast := m.messageLast - 2 },
          false, false, []⟩) ∧
    (∀ (buf : Nat → Nat) (len : Nat),
      ModSlaveRxDoneCallback
        { m with status := .processing, messageLast := m.messageLast - 2 } buf len =
        { m with status := .processing, messageLast := m.messageLast - 2 }) ∧
    ModSlaveRxErrorCallback { m with status := .processing, messageLast := m.messageLast - 2 } =
      { m with status := .processing, messageLast := m.messageLast - 2 } ∧
    ModSlaveTxDoneCallback { m with status := .processing, messageLast := m.messageLast - 2 } =
      { m with status := .processing, messageLast := m.messageLast - 2 } := by
  have h34 : ¬(m.message 1 = 0x03 ∨ m.message 1 = 0x04) := by rw [hOp]; decide
  have h10 : ¬m.message 1 = 0x10 := by rw [hOp]; decide
  have hm3 : ¬m.messageLast < 3 := by omega
  have hNz' : ¬m.address = 0 := by rw [← hAddr]; exact hNz
  have hpc : ModSlaveProcessCommand env
      { m with status := .processing, messageLast := m.messageLast - 2 } =
      some ⟨0, { m with status := .processing, messageLast := m.messageLast - 2 }, []⟩ := by
    simp [ModSlaveProcessCommand, h34, h10, hOp, h2, h3]
  have hsa : ModSlaveSendAnswer env
      { m with status := .processing, messageLast := m.messageLast - 2 } =
      ⟨-1, { m with status := .processing, messageLast := m.messageLast - 2 }, false⟩ := by
    simp [ModSlaveSendAnswer, hBig]
  have hpm : ModSlaveParseMessage env m = some ⟨-1,
      { m with status := .processing, messageLast := m.messageLast - 2 },
      false, false, []⟩ := by
    simp only [ModSlaveParseMessage, hAddr, hm3, hHi, hLo]
    simp only [hpc, hsa]
    simp [hNz', hAddr]
  refine ⟨?_, ?_, ?_, ?_, ?_⟩
  · simp [ModSlaveCheck, hst, hpm]
  · intro env2
    rfl
  · intro buf len
    unfold ModSlaveRxDoneCallback
    rw [if_neg (by simp)]
  · unfold ModSlaveRxErrorCallback
    rw [if_neg (by simp)]
  · unfold ModSlaveTxDoneCallback
    rw [if_neg (by simp)]

/-- C9 instance: the 257-byte diagnostic request `01 08 00 00 … CRC` jams
the slave session in `Processing`. -/
theorem c9_oversize_echo_stuck_instance :
    253 < sdiagReq.messageLast - 2 ∧
    ModSlaveCheck envOk sdiagReq =
      some ⟨-1, { sdiagReq with status := .processing, messageLast := 254 }, false, false, []⟩ ∧
    ModSlaveTxDoneCallback { sdiagReq with status := .processing, messageLast := 254 } =
      { sdiagReq with status := .processing, messageLast := 254 } := by
  have h := c9_oversize_echo_stuck envOk sdiagReq rfl (by decide) (by decide) (by decide)
    (by decide) (by decide) (by decide) (by decide) (by decide) (by decide)
  exact ⟨by decide, h.1, h.2.2.2.2⟩

/-- helper: with `j = 0xFFFF` and an always-succeeding `pfSetReg`, the C
write loop's `uint16_t` counter wraps past 0xFFFF and the loop never exits,
whatever the fuel -/
theorem slaveWriteLoop_wrap (env : SlaveEnv) (hset : ∀ a v, env.pfSetReg a v = 0) :
    ∀ fuel i idx m calls, i ≤ 65535 →
      slaveWriteLoop env fuel i 65535 idx m calls = none := by
  intro fuel
  induction fuel with
  | zero => intro i idx m calls hi; rfl
  | succ f ih =>
    intro i idx m calls hi
    unfold slaveWriteLoop
    rw [if_pos hi]
    simp only [hset]
    rw [if_neg (by omega)]
    exact ih _ _ _ _ (by omega)

/-- helper: peeling the first element off the expected register-write call
list -/
theorem writeCalls_shift (msg : Nat → Nat) (n i idx : Nat) :
    (List.range (n + 1)).map
        (fun k => (i + k, msg (idx + 1 + 2 * k) * 256 + msg (idx + 2 + 2 * k))) =
      (i, msg (idx + 1) * 256 + msg (idx + 2)) ::
        (List.range n).map (fun k => (i + 1 + k,
          msg (idx + 2 + 1 + 2 * k) * 256 + msg (idx + 2 + 2 + 2 * k))) := by
  rw [List.range_succ_eq_map, List.map_cons, List.map_map]
  rw [show (i + 0, msg (idx + 1 + 2 * 0) * 256 + msg (idx + 2 + 2 * 0)) =
    (i, msg (idx + 1) * 256 + msg (idx + 2)) from rfl]
  have hm : ∀ a ∈ List.range n,
      ((fun k => (i + k, msg (idx + 1 + 2 * k) * 256 + msg (idx + 2 + 2 * k))) ∘ Nat.succ) a =
      (fun k => (i + 1 + k,
        msg (idx + 2 + 1 + 2 * k) * 256 + msg (idx + 2 + 2 + 2 * k))) a := by
    intro a _
    simp only [Function.comp_apply, Nat.succ_eq_add_one, Prod.mk.injEq]
    refine ⟨by omega, ?_⟩
    have e2 : idx + 1 + 2 * (a + 1) = idx + 2 + 1 + 2 * a := by omega
    have e3 : idx + 2 + 2 * (a + 1) = idx + 2 + 2 + 2 * a := by omega
    rw [e2, e3]
  rw [List.map_congr_left hm]

/-- helper: with `j < 0xFFFF` and an always-succeeding `pfSetReg`, the
write loop terminates after writing registers `i..j` in order, decoding
each value big-endian from the body -/
theorem slaveWriteLoop_run (env : SlaveEnv) (hset : ∀ a v, env.pfSetReg a v = 0) :
    ∀ d fuel i j idx m calls, j - i = d → i ≤ j → j < 65535 → d + 2 ≤ fuel →
      slaveWriteLoop env fuel i j idx m calls =
        some (0, m, calls ++ (List.range (j + 1 - i)).map
          (fun k => (i + k, m.message (idx + 1 + 2 * k) * 256 + m.message (idx + 2 + 2 * k)))) := by
  intro d
  induction d with
  | zero =>
    intro fuel i j idx m calls hd hij hjlt hfuel
    have hij2 : i = j := by omega
    subst hij2
    obtain ⟨f1, rfl⟩ : ∃ f1, fuel = f1 + 1 := ⟨fuel - 1, by omega⟩
    unfold slaveWriteLoop
    rw [if_pos (le_refl i)]
    simp only [hset]
    rw [if_neg (by omega)]
    obtain ⟨f2, rfl⟩ : ∃ f2, f1 = f2 + 1 := ⟨f1 - 1, by omega⟩
    unfold slaveWriteLoop
    rw [Nat.mod_eq_of_lt (by omega), if_neg (by omega)]
    have h1 : i + 1 - i = 1 := by omega
    rw [h1, show List.range 1 = [0] from rfl]
    simp
  | succ dd ih =>
    intro fuel i j idx m calls hd hij hjlt hfuel
    obtain ⟨f1, rfl⟩ : ∃ f1, fuel = f1 + 1 := ⟨fuel - 1, by omega⟩
    unfold slaveWriteLoop
    rw [if_pos hij]
    simp only [hset]
    rw [if_neg (by omega)]
    rw [Nat.mod_eq_of_lt (show i + 1 < 65536 by omega)]
    rw [ih f1 (i + 1) j (idx + 2) m _ (by omega) (by omega) hjlt (by omega)]
    rw [List.append_assoc, List.singleton_append]
    rw [show j + 1 - (i + 1) = j - i from by omega, show j + 1 - i = j - i + 1 from by omega]
    rw [writeCalls_shift m.message (j - i) i idx]

/-- bytes of the concrete frame `wrapReqMsg` -/
theorem wrapReqMsg_bytes : ∀ k, wrapReqMsg k < 256 := by
  intro k
  unfold wrapReqMsg
  repeat' split
  all_goals decide

/-- bytes of the concrete frame `writeOkMsg` -/
theorem writeOkMsg_bytes : ∀ k, writeOkMsg k < 256 := by
  intro k
  unfold writeOkMsg
  repeat' split
  all_goals decide

/-- helper: complete case analysis of the slave's write-multiple (0x10)
handler, for an always-succeeding `pfSetReg`.  `first`/`cnt` are the
decoded big-endian start and count fields of the CRC-stripped frame. -/
theorem writeMultiSpec (env : SlaveEnv) (m : ModSlaveStack) (first cnt : Nat)
    (hset : ∀ a v, env.pfSetReg a v = 0)
    (hB : ∀ k, m.message k < 256)
    (hLR : m.lastReg < 65536)
    (hOp : m.message 1 = 0x10)
    (hFirst : first = m.message 2 * 256 + m.message 3)
    (hCnt : cnt = m.message 4 * 256 + m.message 5) :
    (ModSlaveProcessCommand env m = some ⟨0, { m with messageLast := 5 },
        (List.range cnt).map (fun k =>
          (first + k, m.message (7 + 2 * k) * 256 + m.message (8 + 2 * k)))⟩
      ↔ (1 ≤ cnt ∧ cnt ≤ 123 ∧ m.message 6 = 2 * cnt ∧
         m.messageLast + 1 = 7 + 2 * cnt ∧
         first + cnt - 1 < 65535 ∧ first + cnt - 1 ≤ m.lastReg)) ∧
    (¬(1 ≤ cnt ∧ cnt ≤ 123) →
      ModSlaveProcessCommand env m = some ⟨-1, ModSlaveErrorReport m 0x03, []⟩) ∧
    ((1 ≤ cnt ∧ cnt ≤ 123) →
      ¬(m.message 6 = 2 * cnt ∧ m.messageLast + 1 = 7 + 2 * cnt) →
      ModSlaveProcessCommand env m = some ⟨-1, ModSlaveErrorReport m 0x03, []⟩) ∧
    ((1 ≤ cnt ∧ cnt ≤ 123) → (m.message 6 = 2 * cnt ∧ m.messageLast + 1 = 7 + 2 * cnt) →
      ¬(first + cnt - 1 ≤ 65535 ∧ first + cnt - 1 ≤ m.lastReg) →
      ModSlaveProcessCommand env m = some ⟨-1, ModSlaveErrorReport m 0x02, []⟩) ∧
    ((1 ≤ cnt ∧ cnt ≤ 123) → (m.message 6 = 2 * cnt ∧ m.messageLast + 1 = 7 + 2 * cnt) →
      first + cnt - 1 = 65535 → m.lastReg = 65535 →
      ModSlaveProcessCommand env m = none) := by
  have h34 : ¬(m.message 1 = 0x03 ∨ m.message 1 = 0x04) := by rw [hOp]; decide
  have hb2 := hB 2
  have hb3 := hB 3
  have hb5 := hB 5
  have hBclause : ¬(1 ≤ cnt ∧ cnt ≤ 123) →
      ModSlaveProcessCommand env m = some ⟨-1, ModSlaveErrorReport m 0x03, []⟩ := by
    intro h
    have hc1 : m.message 4 ≠ 0 ∨ m.message 5 > 123 ∨ m.message 5 < 1 := by omega
    simp only [ModSlaveProcessCommand]
    rw [if_neg h34, if_pos hOp, if_pos hc1]
  have hCclause : (1 ≤ cnt ∧ cnt ≤ 123) →
      ¬(m.message 6 = 2 * cnt ∧ m.messageLast + 1 = 7 + 2 * cnt) →
      ModSlaveProcessCommand env m = some ⟨-1, ModSlaveErrorReport m 0x03, []⟩ := by
    intro hok h
    have hc1' : ¬(m.message 4 ≠ 0 ∨ m.message 5 > 123 ∨ m.message 5 < 1) := by omega
    have hc2 : m.message 6 ≠ 2 * m.message 5 ∨
        (m.message 6 : Int) ≠ (m.messageLast : Int) - 6 := by
      by_cases h6 : m.message 6 = 2 * m.message 5
      · right
        have hnl : ¬(m.messageLast + 1 = 7 + 2 * cnt) := fun hl => h ⟨by omega, hl⟩
        omega
      · left; exact h6
    simp only [ModSlaveProcessCommand]
    rw [if_neg h34, if_pos hOp, if_neg hc1', if_pos hc2]
  have hDclause : (1 ≤ cnt ∧ cnt ≤ 123) →
      (m.message 6 = 2 * cnt ∧ m.messageLast + 1 = 7 + 2 * cnt) →
      ¬(first + cnt - 1 ≤ 65535 ∧ first + cnt - 1 ≤ m.lastReg) →
      ModSlaveProcessCommand env m = some ⟨-1, ModSlaveErrorReport m 0x02, []⟩ := by
    intro hok hlen hr
    have hc1' : ¬(m.message 4 ≠ 0 ∨ m.message 5 > 123 ∨ m.message 5 < 1) := by omega
    have hc2' : ¬(m.message 6 ≠ 2 * m.message 5 ∨
        (m.message 6 : Int) ≠ (m.messageLast : Int) - 6) := by
      have h6 : m.message 6 = 2 * m.message 5 := by omega
      have hl : (m.message 6 : Int) = (m.messageLast : Int) - 6 := by omega
      exact fun hc => hc.elim (fun ha => ha h6) (fun hb => hb hl)
    have hc3 : m.message 2 * 256 + m.message 3 >
        (m.message 5 - 1 + (m.message 2 * 256 + m.message 3)) % 65536 ∨
        (m.message 5 - 1 + (m.message 2 * 256 + m.message 3)) % 65536 > m.lastReg := by
      omega
    simp only [ModSlaveProcessCommand]
    rw [if_neg h34, if_pos hOp, if_neg hc1', if_neg hc2', if_pos hc3]
  have hFclause : (1 ≤ cnt ∧ cnt ≤ 123) →
      (m.message 6 = 2 * cnt ∧ m.messageLast + 1 = 7 + 2 * cnt) →
      first + cnt - 1 = 65535 → m.lastReg = 65535 →
      ModSlaveProcessCommand env m = none := by
    intro hok hlen hs hlr
    have hc1' : ¬(m.message 4 ≠ 0 ∨ m.message 5 > 123 ∨ m.message 5 < 1) := by omega
    have hc2' : ¬(m.message 6 ≠ 2 * m.message 5 ∨
        (m.message 6 : Int) ≠ (m.messageLast : Int) - 6) := by
      have h6 : m.message 6 = 2 * m.message 5 := by omega
      have hl : (m.message 6 : Int) = (m.messageLast : Int) - 6 := by omega
      exact fun hc => hc.elim (fun ha => ha h6) (fun hb => hb hl)
    have hc3' : ¬(m.message 2 * 256 + m.message 3 >
        (m.message 5 - 1 + (m.message 2 * 256 + m.message 3)) % 65536 ∨
        (m.message 5 - 1 + (m.message 2 * 256 + m.message 3)) % 65536 > m.lastReg) := by
      omega
    simp only [ModSlaveProcessCommand]
    rw [if_neg h34, if_pos hOp, if_neg hc1', if_neg hc2', if_neg hc3']
    have hj : (m.message 5 - 1 + (m.message 2 * 256 + m.message 3)) % 65536 = 65535 := by
      omega
    rw [hj, slaveWriteLoop_wrap env hset 65537 (m.message 2 * 256 + m.message 3) 6 m []
      (by omega)]
  have hAclause : (1 ≤ cnt ∧ cnt ≤ 123) →
      (m.message 6 = 2 * cnt ∧ m.messageLast + 1 = 7 + 2 * cnt) →
      first + cnt - 1 < 65535 → first + cnt - 1 ≤ m.lastReg →
      ModSlaveProcessCommand env m = some ⟨0, { m with messageLast := 5 },
        (List.range cnt).map (fun k =>
          (first + k, m.message (7 + 2 * k) * 256 + m.message (8 + 2 * k)))⟩ := by
    intro hok hlen hlt hle
    have hc1' : ¬(m.message 4 ≠ 0 ∨ m.message 5 > 123 ∨ m.message 5 < 1) := by omega
    have hc2' : ¬(m.message 6 ≠ 2 * m.message 5 ∨
        (m.message 6 : Int) ≠ (m.messageLast : Int) - 6) := by
      have h6 : m.message 6 = 2 * m.message 5 := by omega
      have hl : (m.message 6 : Int) = (m.messageLast : Int) - 6 := by omega
      exact fun hc => hc.elim (fun ha => ha h6) (fun hb => hb hl)
    have hc3' : ¬(m.message 2 * 256 + m.message 3 >
        (m.message 5 - 1 + (m.message 2 * 256 + m.message 3)) % 65536 ∨
        (m.message 5 - 1 + (m.message 2 * 256 + m.message 3)) % 65536 > m.lastReg) := by
      omega
    simp only [ModSlaveProcessCommand]
    rw [if_neg h34, if_pos hOp, if_neg hc1', if_neg hc2', if_neg hc3']
    have hj : (m.message 5 - 1 + (m.message 2 * 256 + m.message 3)) % 65536 =
        first + cnt - 1 := by omega
    rw [hj, ← hFirst]
    have hloop := slaveWriteLoop_run env hset (first + cnt - 1 - first) 65537 first
      (first + cnt - 1) 6 m [] rfl (by omega) (by omega) (by omega)
    simp only [hloop, List.nil_append]
    rw [show first + cnt - 1 + 1 - first = cnt from by omega]
    have hmf : ∀ a ∈ List.range cnt,
        (fun k => (first + k,
          m.message (6 + 1 + 2 * k) * 256 + m.message (6 + 2 + 2 * k))) a =
        (fun k => (first + k,
          m.message (7 + 2 * k) * 256 + m.message (8 + 2 * k))) a := by
      intro a _
      show (first + a, m.message (6 + 1 + 2 * a) * 256 + m.message (6 + 2 + 2 * a)) =
        (first + a, m.message (7 + 2 * a) * 256 + m.message (8 + 2 * a))
      have e2 : 6 + 1 + 2 * a = 7 + 2 * a := by omega
      have e3 : 6 + 2 + 2 * a = 8 + 2 * a := by omega
      rw [e2, e3]
    rw [List.map_congr_left hmf]
    simp
  refine ⟨?_, hBclause, hCclause, hDclause, hFclause⟩
  constructor
  · intro hE
    by_contra hnok
    by_cases hokc : 1 ≤ cnt ∧ cnt ≤ 123
    · by_cases hokl : m.message 6 = 2 * cnt ∧ m.messageLast + 1 = 7 + 2 * cnt
      · by_cases hokr : first + cnt - 1 ≤ 65535 ∧ first + cnt - 1 ≤ m.lastReg
        · by_cases hslt : first + cnt - 1 < 65535
          · exact hnok ⟨hokc.1, hokc.2, hokl.1, hokl.2, hslt, hokr.2⟩
          · have hcontr := (hFclause hokc hokl (by omega) (by omega)).symm.trans hE
            exact Option.noConfusion hcontr
        · have hcontr := congrArg (Option.map SlaveProcResult.retval)
            ((hDclause hokc hokl hokr).symm.trans hE)
          simp at hcontr
      · have hcontr := congrArg (Option.map SlaveProcResult.retval)
          ((hCclause hokc hokl).symm.trans hE)
        simp at hcontr
    · have hcontr := congrArg (Option.map SlaveProcResult.retval)
        ((hBclause hokc).symm.trans hE)
      simp at hcontr
  · intro hok
    exact hAclause ⟨hok.1, hok.2.1⟩ ⟨hok.2.2.1, hok.2.2.2.1⟩ hok.2.2.2.2.1 hok.2.2.2.2.2

/-- C2 counterexample: the CRC-stripped write-multiple frame
`01 10 FF 85 00 7B F6 …` (write 123 registers starting at 0xFF85, so the
last register is 0xFFFF) on a slave with `last_reg = 0xFFFF` satisfies
every condition of the claim — count in [1,123], byte-count = 2·count,
total length 7 + 2·count, `first + count − 1` within 16 bits and at most
`last_reg` — yet no echo reply is ever built: the handler's `uint16_t` loop
counter wraps past 0xFFFF and the C loop never exits (`none` in the
embedding). -/
theorem c2_write_multi_counterexample :
    (1 ≤ 123 ∧ (123 : Nat) ≤ 123) ∧
    swrapReq.message 6 = 2 * 123 ∧
    swrapReq.messageLast + 1 = 7 + 2 * 123 ∧
    65413 + 123 - 1 ≤ 65535 ∧ 65413 + 123 - 1 ≤ swrapReq.lastReg ∧
    ModSlaveProcessCommand envOk swrapReq = none := by
  refine ⟨by decide, by decide, by decide, by decide, by decide, ?_⟩
  exact (writeMultiSpec envOk swrapReq 65413 123 (fun a v => rfl) wrapReqMsg_bytes
    (by decide) (by decide) (by decide) (by decide)).2.2.2.2
    ⟨by decide, by decide⟩ ⟨by decide, by decide⟩ (by decide) (by decide)

/-- C2 (amended): for a unicast write-multiple frame past address and CRC
checks, with application `set_reg` accepting every write, the slave calls
`pfSetReg` once per register with the big-endian decoded value and builds
the 6-byte echo reply (`messageLast = 5`) exactly when the count is in
[1,123], the byte-count field equals `2·count`, the stripped length is
`7 + 2·count`, and `first + count − 1` is strictly below 0xFFFF and at most
`last_reg`; a count or length violation yields an `ILLEGAL_VALUE` (0x03)
exception reply, a range violation yields `ILLEGAL_ADDRESS` (0x02), and in
the remaining case — last register exactly 0xFFFF and `last_reg = 0xFFFF` —
the handler never returns (the claim's original bound `first + count − 1 ≤
0xFFFF` is falsified there, see the counterexample). -/
theorem c2_write_multi_gate (env : SlaveEnv) (m : ModSlaveStack) (first cnt : Nat)
    (hset : ∀ a v, env.pfSetReg a v = 0)
    (hB : ∀ k, m.message k < 256)
    (hLR : m.lastReg < 65536)
    (hOp : m.message 1 = 0x10)
    (hFirst : first = m.message 2 * 256 + m.message 3)
    (hCnt : cnt = m.message 4 * 256 + m.message 5) :
    (ModSlaveProcessCommand env m = some ⟨0, { m with messageLast := 5 },
        (List.range cnt).map (fun k =>
          (first + k, m.message (7 + 2 * k) * 256 + m.message (8 + 2 * k)))⟩
      ↔ (1 ≤ cnt ∧ cnt ≤ 123 ∧ m.message 6 = 2 * cnt ∧
         m.messageLast + 1 = 7 + 2 * cnt ∧
         first + cnt - 1 < 65535 ∧ first + cnt - 1 ≤ m.lastReg)) ∧
    (¬(1 ≤ cnt ∧ cnt ≤ 123) →
      ModSlaveProcessCommand env m = some ⟨-1, ModSlaveErrorReport m 0x03, []⟩) ∧
    ((1 ≤ cnt ∧ cnt ≤ 123) →
      ¬(m.message 6 = 2 * cnt ∧ m.messageLast + 1 = 7 + 2 * cnt) →
      ModSlaveProcessCommand env m = some ⟨-1, ModSlaveErrorReport m 0x03, []⟩) ∧
    ((1 ≤ cnt ∧ cnt ≤ 123) → (m.message 6 = 2 * cnt ∧ m.messageLast + 1 = 7 + 2 * cnt) →
      ¬(first + cnt - 1 ≤ 65535 ∧ first + cnt - 1 ≤ m.lastReg) →
      ModSlaveProcessCommand env m = some ⟨-1, ModSlaveErrorReport m 0x02, []⟩) ∧
    ((1 ≤ cnt ∧ cnt ≤ 123) → (m.message 6 = 2 * cnt ∧ m.messageLast + 1 = 7 + 2 * cnt) →
      first + cnt - 1 = 65535 → m.lastReg = 65535 →
      ModSlaveProcessCommand env m = none) :=
  writeMultiSpec env m first cnt hset hB hLR hOp hFirst hCnt

/-- C2 instance: the frame `01 10 00 05 00 01 02 12 34` writes register 5
with 0x1234 — one `pfSetReg` call — and is answered with the 6-byte echo. -/
theorem c2_write_multi_gate_instance :
    (1 ≤ 1 ∧ (1 : Nat) ≤ 123 ∧ swriteOk.message 6 = 2 * 1 ∧
      swriteOk.messageLast + 1 = 7 + 2 * 1 ∧
      5 + 1 - 1 < 65535 ∧ 5 + 1 - 1 ≤ swriteOk.lastReg) ∧
    ModSlaveProcessCommand envOk swriteOk = some ⟨0, { swriteOk with messageLast := 5 },
      (List.range 1).map (fun k =>
        (5 + k, swriteOk.message (7 + 2 * k) * 256 + swriteOk.message (8 + 2 * k)))⟩ := by
  refine ⟨by decide, ?_⟩
  exact (c2_write_multi_gate envOk swriteOk 5 1 (fun a v => rfl) writeOkMsg_bytes
    (by decide) (by decide) (by decide) (by decide)).1.mpr (by decide)
